import Mathlib

/-!
Verification of the Kademlia-style DHT overlay of the webrtc-network-simulator
repository, as a shallow embedding in Lean 4.

Node identifiers are hex strings in the source, decoded to byte buffers for
arithmetic; we embed an identifier as its byte sequence, a value of type
List Nat (each entry one byte).  The hex-string comparisons the source
performs with localeCompare and with the string less-than operator compare
equal-length lowercase hex strings character by character, which coincides
with byte-by-byte lexicographic comparison of the decoded buffers, so
distances are compared here lexicographically on byte lists.  Message and
signaling identifiers are UUID strings in the source and are opaque except
for equality; we embed them as Nat.  JavaScript Map and Set preserve
insertion order, so both are embedded as lists kept in insertion order
(association lists for Map, duplicate-free lists for Set).
-/

/-- Bytewise XOR of two ids, from KBucket.xorDistance in src/kbucket.js.
The source allocates a result of the first argument's length and XORs with 0
where the second buffer has no byte, so the result length is the first
argument's length. -/
def xorDistance : List Nat → List Nat → List Nat
  | [], _ => []
  | a :: as, [] => a :: xorDistance as []
  | a :: as, b :: bs => (a ^^^ b) :: xorDistance as bs

/-- Lexicographic strict comparison of byte sequences, the embedding of the
less-than comparison the source performs on equal-length lowercase hex
distance strings. -/
def hexLt : List Nat → List Nat → Bool
  | [], [] => false
  | [], _ :: _ => true
  | _ :: _, [] => false
  | a :: as, b :: bs => if a < b then true else if b < a then false else hexLt as bs

/-- Non-strict counterpart of hexLt, the embedding of an ascending
localeCompare comparator on distance strings. -/
def hexLe (x y : List Nat) : Bool := !(hexLt y x)

/-- Position of the highest set bit inside one byte, counted from the most
significant bit (bit 7 maps to 0), none if the byte is zero.  This embeds
the inner loop of KBucket.bucketIndex in src/kbucket.js. -/
def byteBitIndex (b : Nat) : Option Nat :=
  if b.testBit 7 then some 0
  else if b.testBit 6 then some 1
  else if b.testBit 5 then some 2
  else if b.testBit 4 then some 3
  else if b.testBit 3 then some 4
  else if b.testBit 2 then some 5
  else if b.testBit 1 then some 6
  else if b.testBit 0 then some 7
  else none

/-- Outer loop of KBucket.bucketIndex: scan bytes from the most significant,
return 8 times the byte position plus the bit position of the first set bit. -/
def bucketIndexAux : List Nat → Nat → Nat
  | [], _ => 0
  | b :: rest, i =>
    match byteBitIndex b with
    | some j => i * 8 + j
    | none => bucketIndexAux rest (i + 1)

/-- KBucket.bucketIndex from src/kbucket.js: index of the highest-order set
bit of a distance, 0 for the all-zero distance. -/
def bucketIndex (d : List Nat) : Nat := bucketIndexAux d 0

/-- Stable insertion of an element into a sorted list, placing it before the
first element it compares less-or-equal to. -/
def insertSorted (le : α → α → Bool) (a : α) : List α → List α
  | [] => [a]
  | b :: l => if le a b then a :: b :: l else b :: insertSorted le a l

/-- Stable sort by a boolean comparator.  The source sorts with the stable
Array.prototype.sort and an ascending comparator; any stable sort agrees
with it on a consistent comparator, and this structural insertion sort is
stable. -/
def sortStable (le : α → α → Bool) : List α → List α
  | [] => []
  | a :: l => insertSorted le a (sortStable le l)

/-- A routing-table contact; the source stores objects carrying an id. -/
structure Contact where
  id : List Nat
deriving DecidableEq, Repr

/-- State of KBucket from src/kbucket.js: 160 buckets of contacts, the local
node id, and the per-bucket capacity k. -/
structure KBucketState where
  localId : List Nat
  k : Nat
  buckets : List (List Contact)
deriving DecidableEq, Repr

/-- The KBucket constructor: 160 empty buckets. -/
def KBucket.init (localId : List Nat) (k : Nat) : KBucketState :=
  { localId := localId, k := k, buckets := List.replicate 160 [] }

/-- KBucket.all: concatenation of all buckets. -/
def KBucketState.all (st : KBucketState) : List Contact := st.buckets.flatten

/-- KBucket.add from src/kbucket.js: no-op on the self id, no-op if the id is
already in its bucket, append if the bucket has room, otherwise shift the
front out and append. -/
def KBucketState.add (st : KBucketState) (node : Contact) : KBucketState :=
  if node.id = st.localId then st
  else
    let distance := xorDistance st.localId node.id
    let i := bucketIndex distance
    let bucket := st.buckets.getD i []
    if bucket.any (fun n => n.id == node.id) then st
    else if bucket.length < st.k then
      { st with buckets := st.buckets.set i (bucket ++ [node]) }
    else
      { st with buckets := st.buckets.set i (bucket.drop 1 ++ [node]) }

/-- KBucket.closest from src/kbucket.js: pair every contact with its XOR
distance to the target, sort ascending by distance, take the first k. -/
def KBucketState.closest (st : KBucketState) (target : List Nat) (k : Nat) :
    List Contact :=
  let distances := st.all.map (fun node => (node, xorDistance node.id target))
  let sorted := sortStable (fun a b => hexLe a.2 b.2) distances
  (sorted.take k).map (fun d => d.1)

/-- KBucket.sortClosestToSelf from src/kbucket.js: sort the given peer ids by
XOR distance to the local id. -/
def KBucketState.sortClosestToSelf (st : KBucketState) (peerIds : List (List Nat)) :
    List (List Nat) :=
  let distances := peerIds.map (fun peerId => (peerId, xorDistance st.localId peerId))
  let sorted := sortStable (fun a b => hexLe a.2 b.2) distances
  sorted.map (fun d => d.1)

/-- A message envelope as the DHT sees it: an optional dedup id (absent when
the JavaScript id field is missing or falsy), the originator id carried in
the senderId field, a millisecond timestamp, and whether the envelope has a
content field (signaling envelopes do not). -/
structure Msg where
  id : Option Nat
  senderId : List Nat
  timestamp : Nat
  content : Bool
deriving DecidableEq, Repr

/-- A queued cache entry from src/cache-strategy.js: the object stored under
the message id in the cachedMessages map. -/
structure Queued where
  sender : List Nat
  recipient : List Nat
  message : Msg
deriving DecidableEq, Repr

/-- State of a cache strategy: the cachedMessages map (an insertion-ordered
association list keyed by message id) and the accessOrder list. -/
structure CacheState where
  cachedMessages : List (Nat × Queued)
  accessOrder : List Nat
deriving DecidableEq, Repr

/-- The per-entry loop of tryToDeliverCachedMessages in src/cache-strategy.js,
shared verbatim by both strategy classes.  It walks the map in insertion
order accumulating the toRemove list and updating accessOrder: an entry
older than maxTTL is marked for removal; otherwise the recipient is looked
up and pinged, a successful send marks the entry for removal, and a failed
send or an offline recipient moves the entry to the tail of accessOrder.
Returns the final toRemove list and accessOrder. -/
def deliverLoop (findAndPingNode : List Nat → Option Contact)
    (sendMessage : Contact → List Nat → List Nat → Msg → Bool)
    (now maxTTL : Nat) :
    List (Nat × Queued) → List Nat → List Nat → List Nat × List Nat
  | [], toRemove, accessOrder => (toRemove, accessOrder)
  | (messageId, msg) :: rest, toRemove, accessOrder =>
    if now - msg.message.timestamp > maxTTL then
      deliverLoop findAndPingNode sendMessage now maxTTL rest
        (toRemove ++ [messageId]) accessOrder
    else
      match findAndPingNode msg.recipient with
      | some targetNode =>
        if sendMessage targetNode msg.sender msg.recipient msg.message then
          deliverLoop findAndPingNode sendMessage now maxTTL rest
            (toRemove ++ [messageId]) accessOrder
        else
          deliverLoop findAndPingNode sendMessage now maxTTL rest
            toRemove (accessOrder.filter (fun aid => aid ≠ messageId) ++ [messageId])
      | none =>
        deliverLoop findAndPingNode sendMessage now maxTTL rest
          toRemove (accessOrder.filter (fun aid => aid ≠ messageId) ++ [messageId])

/-- The state part of tryToDeliverCachedMessages: run the per-entry loop,
then delete every marked id from the map and filter it out of accessOrder. -/
def deliverPass (st : CacheState) (findAndPingNode : List Nat → Option Contact)
    (sendMessage : Contact → List Nat → List Nat → Msg → Bool)
    (now maxTTL : Nat) : CacheState :=
  let r := deliverLoop findAndPingNode sendMessage now maxTTL
    st.cachedMessages [] st.accessOrder
  { cachedMessages := st.cachedMessages.filter (fun p => !(r.1.contains p.1)),
    accessOrder := r.2.filter (fun aid => !(r.1.contains aid)) }

/-- Result of a tryToDeliverCachedMessages call: the new cache state and the
events the strategy emitted, in emission order. -/
structure DeliverResult where
  cache : CacheState
  events : List String
deriving DecidableEq, Repr

/-- DistanceBasedCacheStrategy.tryToDeliverCachedMessages from
src/cache-strategy.js: the shared pass, then a single delivered event. -/
def DistanceBased.tryToDeliverCachedMessages (st : CacheState)
    (findAndPingNode : List Nat → Option Contact)
    (sendMessage : Contact → List Nat → List Nat → Msg → Bool)
    (now maxTTL : Nat) : DeliverResult :=
  { cache := deliverPass st findAndPingNode sendMessage now maxTTL,
    events := ["delivered"] }

/-- DistanceBasedProbabilisticCacheStrategy.tryToDeliverCachedMessages from
src/cache-strategy.js: the shared pass, then an emptyCache event when the
map came out empty, then a delivered event. -/
def Probabilistic.tryToDeliverCachedMessages (st : CacheState)
    (findAndPingNode : List Nat → Option Contact)
    (sendMessage : Contact → List Nat → List Nat → Msg → Bool)
    (now maxTTL : Nat) : DeliverResult :=
  let c := deliverPass st findAndPingNode sendMessage now maxTTL
  { cache := c,
    events := (if c.cachedMessages.isEmpty then ["emptyCache"] else []) ++ ["delivered"] }

/-- Key-membership test on the cachedMessages map. -/
def hasKey (m : List (Nat × Queued)) (key : Nat) : Bool :=
  m.any (fun p => p.1 == key)

/-- DistanceBasedCacheStrategy.addCachedMessages from src/cache-strategy.js:
for each incoming pair, insert it and append its key to accessOrder unless
the key is already present. -/
def DistanceBased.addCachedMessages (st : CacheState)
    (incoming : List (Nat × Queued)) : CacheState :=
  incoming.foldl
    (fun acc kv =>
      if hasKey acc.cachedMessages kv.1 then acc
      else { cachedMessages := acc.cachedMessages ++ [kv],
             accessOrder := acc.accessOrder ++ [kv.1] })
    st

/-- DistanceBasedCacheStrategy.getCachedMessages from src/cache-strategy.js:
a copy of the cachedMessages map. -/
def DistanceBased.getCachedMessages (st : CacheState) : List (Nat × Queued) :=
  st.cachedMessages

/-- Adding an id to a JavaScript Set: no-op when present, else append in
insertion order. -/
def addId (ids : List Nat) (mid : Nat) : List Nat :=
  if ids.contains mid then ids else ids ++ [mid]

/-- One rpc.sendMessage call issued by the forwarding loop: the target
contact, the sender and recipient ids, the envelope, and whether it went out
on the signaling slot (the source sends the envelope as signalingMessage
exactly when it has no content field). -/
structure ForwardSend where
  node : Contact
  sender : List Nat
  recipient : List Nat
  message : Msg
  isSignaling : Bool
deriving DecidableEq, Repr

/-- Result of ForwardToAllCloserForwardStrategy.forward: the sends performed
in order, the forwardedMessagesIds set afterwards, and the events emitted. -/
structure ForwardResult where
  sends : List ForwardSend
  forwardedMessagesIds : List Nat
  events : List String
deriving DecidableEq, Repr

/-- Body of ForwardToAllCloserForwardStrategy.forward past the dedup check:
take the k contacts closest to the recipient, drop the sender and the local
node, additionally keep only contacts strictly closer to the recipient than
the local node unless forceForwardingToKPeers is set, send to each in order,
and finally add the message id (when present) to forwardedMessagesIds.
The originNode flag is accepted and unused, as in the source. -/
def forwardBody (sender recipient : List Nat) (message : Msg)
    (buckets : KBucketState) (k : Nat) (nodeId : List Nat)
    (forwardedMessagesIds : List Nat) (_originNode forceForwardingToKPeers : Bool) :
    ForwardResult :=
  let selfDistanceToTarget := xorDistance nodeId recipient
  let closestPeers := buckets.closest recipient k
  let peersToForward :=
    if forceForwardingToKPeers then
      closestPeers.filter (fun node => node.id ≠ sender ∧ node.id ≠ nodeId)
    else
      closestPeers.filter (fun node =>
        node.id ≠ sender ∧ node.id ≠ nodeId ∧
        hexLt (xorDistance node.id recipient) selfDistanceToTarget = true)
  let isSignaling := !message.content
  let sends := peersToForward.map (fun node =>
    { node := node, sender := sender, recipient := recipient,
      message := message, isSignaling := isSignaling })
  let newIds :=
    match message.id with
    | some mid => addId forwardedMessagesIds mid
    | none => forwardedMessagesIds
  { sends := sends,
    forwardedMessagesIds := newIds,
    events := "nodeProcessesMessage" ::
      (peersToForward.map (fun _ => ["sent", "forward"])).flatten }

/-- ForwardToAllCloserForwardStrategy.forward from src/unnamed/part_000: if
the message has an id already in forwardedMessagesIds, return with no send,
no event and no state change; otherwise run the forwarding body. -/
def ForwardToAllCloserForwardStrategy.forward (sender recipient : List Nat)
    (message : Msg) (buckets : KBucketState) (k : Nat) (nodeId : List Nat)
    (forwardedMessagesIds : List Nat) (originNode forceForwardingToKPeers : Bool) :
    ForwardResult :=
  match message.id with
  | some mid =>
    if forwardedMessagesIds.contains mid then
      { sends := [], forwardedMessagesIds := forwardedMessagesIds, events := [] }
    else
      forwardBody sender recipient message buckets k nodeId
        forwardedMessagesIds originNode forceForwardingToKPeers
  | none =>
    forwardBody sender recipient message buckets k nodeId
      forwardedMessagesIds originNode forceForwardingToKPeers

/-- MAX_RECEIVED_IDS from src/dht.js. -/
def MAX_RECEIVED_IDS : Nat := 10000

/-- State of a DHT node from src/dht.js (the simulator version, the second
document in the file, whose line numbers the claims cite).  The two dedup
sets are insertion-ordered lists of message ids; the rpc data-channel map is
an insertion-ordered association list from peer id to a channel tag; the two
periodic timers are modelled by flags recording whether each interval is
currently scheduled. -/
structure DHTState where
  nodeId : List Nat
  k : Nat
  buckets : KBucketState
  forwardedMessagesIds : List Nat
  receivedSignalingMessageIds : List Nat
  cache : CacheState
  channels : List (List Nat × Nat)
  ttlCleanupActive : Bool
  receivedIdsCleanupActive : Bool
deriving DecidableEq, Repr

/-- DHT.cleanupReceivedSignalingMessageIds from src/dht.js: when the
received-signaling dedup set holds more than MAX_RECEIVED_IDS ids, delete
the oldest ids (a front slice of the insertion order) so that exactly
MAX_RECEIVED_IDS remain.  This is the body the periodic dedup cleanup timer
runs; it touches no other field. -/
def DHT.cleanupReceivedSignalingMessageIds (st : DHTState) : DHTState :=
  let ids := st.receivedSignalingMessageIds
  if ids.length > MAX_RECEIVED_IDS then
    { st with receivedSignalingMessageIds := ids.drop (ids.length - MAX_RECEIVED_IDS) }
  else st

/-- Result of DHT.close: the state afterwards together with the list of
data channels on which rpc.close called close(). -/
structure CloseResult where
  state : DHTState
  closedChannels : List (List Nat × Nat)
deriving DecidableEq, Repr

/-- DHT.close from src/dht.js: stopTTLCleanup clears the TTL interval, then
rpc.close (src/unnamed/part_004) calls close() on every data channel and
clears the channel map, then the received-signaling dedup set is cleared and
the cache strategy is cleared.  Nothing else is touched: in particular the
forwardedMessagesIds set is not cleared and the received-ids cleanup
interval, whose handle the source never stores, is not cancelled. -/
def DHT.close (st : DHTState) : CloseResult :=
  { state := { st with
      ttlCleanupActive := false,
      channels := [],
      receivedSignalingMessageIds := [],
      cache := { cachedMessages := [], accessOrder := [] } },
    closedChannels := st.channels }

/-- The calls DHT.sendMessage makes on its fallback paths: the arguments of
the cacheMessage call (sender, recipient, message, recipientFoundInBuckets)
and of the forward call as received by the forwarding strategy (sender,
recipient, message, originNode, forceForwardingToKPeers), or none when the
direct send succeeded. -/
structure SendMessageOutcome where
  cacheCall : Option (List Nat × List Nat × Msg × Bool)
  forwardCall : Option (List Nat × List Nat × Msg × Bool × Bool)
  directSendSucceeded : Bool
deriving DecidableEq, Repr

/-- DHT.sendMessage from src/dht.js (simulator version): look the recipient
up in the buckets; when found, ping it and on a pong attempt the direct
rpc.sendMessage; on ping failure or send failure, cache with
recipientFoundInBuckets true and forward with originNode true; when the
recipient is not in the buckets, cache with recipientFoundInBuckets false
and forward with originNode false.  Every forward call site passes four
arguments, so the strategy receives the default forceForwardingToKPeers
value false.  The ping and send results are oracle inputs. -/
def DHT.sendMessage (st : DHTState) (recipient : List Nat) (message : Msg)
    (pingOk sendOk : Bool) : SendMessageOutcome :=
  let sender := message.senderId
  match st.buckets.all.find? (fun node => node.id == recipient) with
  | some _targetNodeInBuckets =>
    if pingOk then
      if sendOk then
        { cacheCall := none, forwardCall := none, directSendSucceeded := true }
      else
        { cacheCall := some (st.nodeId, recipient, message, true),
          forwardCall := some (sender, recipient, message, true, false),
          directSendSucceeded := false }
    else
      { cacheCall := some (st.nodeId, recipient, message, true),
        forwardCall := some (sender, recipient, message, true, false),
        directSendSucceeded := false }
  | none =>
    { cacheCall := some (st.nodeId, recipient, message, false),
      forwardCall := some (sender, recipient, message, false, false),
      directSendSucceeded := false }

/-- A PEX data channel: a tag distinguishing the channel object and whether
its readyState is open. -/
structure PEXChannel where
  tag : Nat
  readyStateOpen : Bool
deriving DecidableEq, Repr

/-- ConnectionManager.getClosestOpenPEXDataChannel from
src/connection-manager.js: filter the channel map to the open channels, call
sortClosestToSelf on their peer ids, and return the first open channel of
the unsorted filtered list.  The sorted list the source computes is bound to
no variable and discarded, which this embedding reproduces. -/
def getClosestOpenPEXDataChannel (buckets : KBucketState)
    (pexDataChannels : List (List Nat × PEXChannel)) : Option PEXChannel :=
  let openChannels := pexDataChannels.filter (fun p => p.2.readyStateOpen)
  let _sorted := buckets.sortClosestToSelf (openChannels.map (fun p => p.1))
  match openChannels with
  | [] => none
  | c :: _ => some c.2

/-- The channel selection the specification describes for
performPEXRequestToClosestPeer: among the open channels, the one whose peer
id comes first when the open peer ids are sorted by XOR distance to the
local id with sortClosestToSelf. -/
def closestOpenPEXDataChannelSpec (buckets : KBucketState)
    (pexDataChannels : List (List Nat × PEXChannel)) : Option PEXChannel :=
  let openChannels := pexDataChannels.filter (fun p => p.2.readyStateOpen)
  match buckets.sortClosestToSelf (openChannels.map (fun p => p.1)) with
  | [] => none
  | closestId :: _ =>
    (openChannels.find? (fun p => p.1 == closestId)).map (fun p => p.2)

lemma contains_iff_mem {l : List Nat} {a : Nat} : l.contains a = true ↔ a ∈ l :=
  List.elem_iff

lemma addCachedMessages_no_new (st : CacheState) :
    ∀ l : List (Nat × Queued),
      (∀ p ∈ l, hasKey st.cachedMessages p.1 = true) →
      DistanceBased.addCachedMessages st l = st
  | [], _ => rfl
  | p :: rest, h => by
    have hp := h p (List.mem_cons_self p rest)
    have step : DistanceBased.addCachedMessages st (p :: rest)
        = DistanceBased.addCachedMessages st rest := by
      unfold DistanceBased.addCachedMessages
      simp only [List.foldl_cons, hp, if_true]
    rw [step]
    exact addCachedMessages_no_new st rest
      (fun q hq => h q (List.mem_cons_of_mem p hq))

/-- Claim C8: on the deterministic cache variant, reloading the snapshot of the
cache into the same cache is the identity: every key of the snapshot is
already present, so addCachedMessages keeps the entries map and the
accessOrder list unchanged. -/
theorem cache_roundtrip_identity (st : CacheState) :
    DistanceBased.addCachedMessages st (DistanceBased.getCachedMessages st) = st := by
  apply addCachedMessages_no_new
  intro p hp
  exact List.any_eq_true.mpr ⟨p, hp, by simp⟩

/-- Claim C1 (amended): when the recipient is in the routing table and the
ping fails or the direct send returns false, sendMessage caches the message
with recipientFoundInBuckets true and invokes the forwarding strategy with
the sender taken from the payload senderId field, originNode true, and
forceForwardingToKPeers FALSE: the source calls this.forward with four
arguments, so the strategy receives the default value false, not the true
the claim states. -/
theorem sendMessage_fallback_in_buckets (st : DHTState) (recipient : List Nat)
    (message : Msg) (pingOk sendOk : Bool)
    (hfound : (st.buckets.all.find? (fun node => node.id == recipient)).isSome = true)
    (hfail : pingOk = false ∨ sendOk = false) :
    DHT.sendMessage st recipient message pingOk sendOk =
      { cacheCall := some (st.nodeId, recipient, message, true),
        forwardCall := some (message.senderId, recipient, message, true, false),
        directSendSucceeded := false } := by
  unfold DHT.sendMessage
  rcases hm : st.buckets.all.find? (fun node => node.id == recipient) with _ | tn
  · rw [hm] at hfound
    simp at hfound
  · rw [hm]
    rcases hfail with h | h <;> subst h
    · rfl
    · cases pingOk <;> rfl

def c1buckets : KBucketState :=
  { localId := [0], k := 20, buckets := [[{ id := [2] }]] }

def c1dht : DHTState :=
  { nodeId := [0], k := 20, buckets := c1buckets,
    forwardedMessagesIds := [], receivedSignalingMessageIds := [],
    cache := { cachedMessages := [], accessOrder := [] },
    channels := [], ttlCleanupActive := true, receivedIdsCleanupActive := true }

def c1msg : Msg := { id := some 1, senderId := [5], timestamp := 0, content := true }

/-- Claim C1 (counterexample): a node whose routing table holds the recipient,
with a successful ping and a failed direct send, invokes the forwarding
strategy with forceForwardingToKPeers false, not true as the claim states. -/
theorem sendMessage_forceK_counterexample :
    (DHT.sendMessage c1dht [2] c1msg true false).forwardCall ≠
      some (c1msg.senderId, [2], c1msg, true, true) ∧
    (DHT.sendMessage c1dht [2] c1msg true false).forwardCall =
      some (c1msg.senderId, [2], c1msg, true, false) := by
  constructor <;> decide

/-- Claim C1 (witness): the amended theorem applied at a concrete state whose
routing table holds the recipient, with a failing ping. -/
theorem sendMessage_fallback_witness :
    DHT.sendMessage c1dht [2] c1msg false true =
      { cacheCall := some (c1dht.nodeId, [2], c1msg, true),
        forwardCall := some (c1msg.senderId, [2], c1msg, true, false),
        directSendSucceeded := false } :=
  sendMessage_fallback_in_buckets c1dht [2] c1msg false true (by decide) (Or.inl rfl)

/-- Claim C9 (amended): close() clears the TTL cleanup interval, calls
close() on every data channel and empties the rpc channel map, and clears
the received-signaling dedup set and the message cache; it leaves the
forwardedMessagesIds set and the received-ids cleanup interval untouched,
the former because the source never clears it and the latter because the
source never stores that interval handle. -/
theorem close_effects (st : DHTState) :
    (DHT.close st).state.ttlCleanupActive = false ∧
    (DHT.close st).state.channels = [] ∧
    (DHT.close st).closedChannels = st.channels ∧
    (DHT.close st).state.receivedSignalingMessageIds = [] ∧
    (DHT.close st).state.cache = { cachedMessages := [], accessOrder := [] } ∧
    (DHT.close st).state.forwardedMessagesIds = st.forwardedMessagesIds ∧
    (DHT.close st).state.receivedIdsCleanupActive = st.receivedIdsCleanupActive :=
  ⟨rfl, rfl, rfl, rfl, rfl, rfl, rfl⟩

def c9state : DHTState :=
  { nodeId := [0], k := 20, buckets := c1buckets,
    forwardedMessagesIds := [7], receivedSignalingMessageIds := [8],
    cache := { cachedMessages := [], accessOrder := [] },
    channels := [([1], 1)], ttlCleanupActive := true,
    receivedIdsCleanupActive := true }

/-- Claim C9 (counterexample): after close() on a node with a forwarded id
recorded and the received-ids cleanup interval scheduled, the
forwardedMessagesIds dedup set is not empty and the received-ids cleanup
interval is still scheduled, contradicting the claim that all dedup sets are
empty and the periodic timers are cancelled. -/
theorem close_counterexample :
    (DHT.close c9state).state.forwardedMessagesIds ≠ [] ∧
    (DHT.close c9state).state.receivedIdsCleanupActive = true := by
  constructor
  · decide
  · rfl

/-- Claim C2 (amended): the periodic dedup cleanup bounds the
receivedSignalingMessageIds set: after cleanupReceivedSignalingMessageIds
the set holds at most MAX_RECEIVED_IDS ids, and on overflow exactly the
oldest ids in insertion order are dropped.  The forwardedMessagesIds set the
claim names is not touched by the cleanup and is unbounded. -/
theorem receivedIds_cleanup_bounded (st : DHTState) :
    (DHT.cleanupReceivedSignalingMessageIds st).receivedSignalingMessageIds.length
      ≤ MAX_RECEIVED_IDS ∧
    (st.receivedSignalingMessageIds.length > MAX_RECEIVED_IDS →
      (DHT.cleanupReceivedSignalingMessageIds st).receivedSignalingMessageIds =
        st.receivedSignalingMessageIds.drop
          (st.receivedSignalingMessageIds.length - MAX_RECEIVED_IDS)) := by
  constructor
  · unfold DHT.cleanupReceivedSignalingMessageIds
    by_cases h : st.receivedSignalingMessageIds.length > MAX_RECEIVED_IDS
    · rw [if_pos h]
      simp only [List.length_drop]
      omega
    · rw [if_neg h]
      omega
  · intro h
    unfold DHT.cleanupReceivedSignalingMessageIds
    rw [if_pos h]

def c2state : DHTState :=
  { nodeId := [0], k := 20, buckets := c1buckets,
    forwardedMessagesIds := List.range (MAX_RECEIVED_IDS + 1),
    receivedSignalingMessageIds := [],
    cache := { cachedMessages := [], accessOrder := [] },
    channels := [], ttlCleanupActive := true, receivedIdsCleanupActive := true }

/-- Claim C2 (counterexample): a node state whose forwardedMessagesIds set
holds MAX_RECEIVED_IDS + 1 ids; the periodic dedup cleanup leaves that set
untouched, so after the cleanup it still exceeds MAX_RECEIVED_IDS,
contradicting the claimed bound on forwarded_ids. -/
theorem forwardedIds_unbounded_counterexample :
    ¬ (DHT.cleanupReceivedSignalingMessageIds c2state).forwardedMessagesIds.length
        ≤ MAX_RECEIVED_IDS := by
  have hcond : ¬ (c2state.receivedSignalingMessageIds.length > MAX_RECEIVED_IDS) := by
    simp only [c2state]
    simp
  have h : DHT.cleanupReceivedSignalingMessageIds c2state = c2state := by
    unfold DHT.cleanupReceivedSignalingMessageIds
    rw [if_neg hcond]
  rw [h]
  simp only [c2state]
  rw [List.length_range]
  omega

def c2wstate : DHTState :=
  { nodeId := [0], k := 20, buckets := c1buckets,
    forwardedMessagesIds := [],
    receivedSignalingMessageIds := List.range (MAX_RECEIVED_IDS + 1),
    cache := { cachedMessages := [], accessOrder := [] },
    channels := [], ttlCleanupActive := true, receivedIdsCleanupActive := true }

/-- Claim C2 (witness): the amended theorem applied at a state whose
received-signaling dedup set overflows by one: the cleanup drops exactly the
single oldest id. -/
theorem receivedIds_cleanup_bounded_witness :
    (DHT.cleanupReceivedSignalingMessageIds c2wstate).receivedSignalingMessageIds =
      c2wstate.receivedSignalingMessageIds.drop
        (c2wstate.receivedSignalingMessageIds.length - MAX_RECEIVED_IDS) :=
  (receivedIds_cleanup_bounded c2wstate).2 (by
    simp only [c2wstate]
    rw [List.length_range]
    omega)

/-- Claim C3 (amended): only the probabilistic cache variant emits the
emptyCache event: its tryToDeliverCachedMessages emits emptyCache whenever
the entries map is empty after the removal pass, while the deterministic
DistanceBased variant never emits emptyCache at all. -/
theorem emptyCache_only_probabilistic (st : CacheState)
    (findAndPingNode : List Nat → Option Contact)
    (sendMessage : Contact → List Nat → List Nat → Msg → Bool) (now maxTTL : Nat) :
    "emptyCache" ∉ (DistanceBased.tryToDeliverCachedMessages st findAndPingNode
        sendMessage now maxTTL).events ∧
    ((Probabilistic.tryToDeliverCachedMessages st findAndPingNode sendMessage now
        maxTTL).cache.cachedMessages = [] →
      "emptyCache" ∈ (Probabilistic.tryToDeliverCachedMessages st findAndPingNode
        sendMessage now maxTTL).events) := by
  constructor
  · unfold DistanceBased.tryToDeliverCachedMessages
    show "emptyCache" ∉ ["delivered"]
    decide
  · intro h
    simp only [Probabilistic.tryToDeliverCachedMessages] at h ⊢
    rw [h]
    simp

def c3msg : Msg := { id := some 1, senderId := [1], timestamp := 0, content := true }

def c3cache : CacheState :=
  { cachedMessages := [(1, { sender := [1], recipient := [2], message := c3msg })],
    accessOrder := [1] }

/-- Claim C3 (counterexample): on the deterministic DistanceBased variant, a
pass that expires the single cached entry leaves the entries map empty, yet
the strategy emits only delivered and never emptyCache, contradicting the
claim for that variant. -/
theorem emptyCache_det_counterexample :
    (DistanceBased.tryToDeliverCachedMessages c3cache (fun _ => none)
        (fun _ _ _ _ => false) 100 10).cache.cachedMessages = [] ∧
    "emptyCache" ∉ (DistanceBased.tryToDeliverCachedMessages c3cache (fun _ => none)
        (fun _ _ _ _ => false) 100 10).events := by
  constructor
  · rfl
  · decide

/-- Claim C3 (witness): the amended theorem applied on the probabilistic
variant at a cache whose single entry expires: the pass empties the map and
emptyCache is emitted. -/
theorem emptyCache_probabilistic_witness :
    "emptyCache" ∈ (Probabilistic.tryToDeliverCachedMessages c3cache (fun _ => none)
        (fun _ _ _ _ => false) 100 10).events :=
  (emptyCache_only_probabilistic c3cache (fun _ => none) (fun _ _ _ _ => false)
    100 10).2 rfl

lemma addId_contains (ids : List Nat) (mid : Nat) :
    (addId ids mid).contains mid = true := by
  unfold addId
  by_cases h : ids.contains mid = true
  · rw [if_pos h]
    exact h
  · rw [if_neg h]
    exact contains_iff_mem.mpr (by simp)

lemma forward_suppressed (sender recipient : List Nat) (message : Msg)
    (buckets : KBucketState) (k : Nat) (nodeId : List Nat) (ids : List Nat)
    (originNode forceK : Bool) (mid : Nat)
    (hid : message.id = some mid) (hmem : ids.contains mid = true) :
    ForwardToAllCloserForwardStrategy.forward sender recipient message buckets k
      nodeId ids originNode forceK =
    { sends := [], forwardedMessagesIds := ids, events := [] } := by
  unfold ForwardToAllCloserForwardStrategy.forward
  rw [hid]
  simp only []
  rw [if_pos hmem]

lemma forward_adds_id (sender recipient : List Nat) (message : Msg)
    (buckets : KBucketState) (k : Nat) (nodeId : List Nat) (ids : List Nat)
    (originNode forceK : Bool) (mid : Nat) (hid : message.id = some mid) :
    (ForwardToAllCloserForwardStrategy.forward sender recipient message buckets k
      nodeId ids originNode forceK).forwardedMessagesIds.contains mid = true := by
  unfold ForwardToAllCloserForwardStrategy.forward
  rw [hid]
  simp only []
  by_cases h : ids.contains mid = true
  · rw [if_pos h]
    exact h
  · rw [if_neg h]
    simp only [forwardBody, hid]
    exact addId_contains ids mid

/-- Claim C5: with a payload id set, forwarding is suppressed without side
effect (no send, no event, no state change) when the id is already in
forwardedMessagesIds; after any completed forward call the id is in
forwardedMessagesIds; hence a second forward of the same payload from the
same node, with whatever flags, performs no send. -/
theorem forward_dedup_idempotent (sender recipient : List Nat) (message : Msg)
    (buckets : KBucketState) (k : Nat) (nodeId : List Nat) (ids : List Nat)
    (originNode forceK originNode2 forceK2 : Bool) (mid : Nat)
    (hid : message.id = some mid) :
    (ids.contains mid = true →
      ForwardToAllCloserForwardStrategy.forward sender recipient message buckets k
        nodeId ids originNode forceK =
      { sends := [], forwardedMessagesIds := ids, events := [] }) ∧
    (ForwardToAllCloserForwardStrategy.forward sender recipient message buckets k
      nodeId ids originNode forceK).forwardedMessagesIds.contains mid = true ∧
    (ForwardToAllCloserForwardStrategy.forward sender recipient message buckets k
      nodeId
      (ForwardToAllCloserForwardStrategy.forward sender recipient message buckets k
        nodeId ids originNode forceK).forwardedMessagesIds
      originNode2 forceK2).sends = [] := by
  refine ⟨fun h => forward_suppressed _ _ _ _ _ _ _ _ _ _ hid h,
    forward_adds_id _ _ _ _ _ _ _ _ _ _ hid, ?_⟩
  rw [forward_suppressed _ _ _ _ _ _ _ _ _ _ hid
    (forward_adds_id _ _ _ _ _ _ _ _ _ _ hid)]

/-- Claim C5 (witness): the theorem applied at a concrete call whose payload
id 1 is already in forwardedMessagesIds: the call returns with no send, no
event and the set unchanged. -/
theorem forward_dedup_witness :
    ForwardToAllCloserForwardStrategy.forward [5] [2] c1msg c1buckets 20 [0] [1]
      true false =
    { sends := [], forwardedMessagesIds := [1], events := [] } :=
  (forward_dedup_idempotent [5] [2] c1msg c1buckets 20 [0] [1] true false true false
    1 rfl).1 (by decide)

/-- Whether one pass of tryToDeliverCachedMessages marks an entry for
removal: an entry older than maxTTL always, a younger entry exactly when
findAndPingNode returns a live contact and the send to it succeeds.  This
mirrors the branch structure of the per-entry loop. -/
def removedInPass (findAndPingNode : List Nat → Option Contact)
    (sendMessage : Contact → List Nat → List Nat → Msg → Bool)
    (now maxTTL : Nat) (p : Nat × Queued) : Bool :=
  if now - p.2.message.timestamp > maxTTL then true
  else
    match findAndPingNode p.2.recipient with
    | some node => sendMessage node p.2.sender p.2.recipient p.2.message
    | none => false

lemma deliverLoop_fst (findAndPingNode : List Nat → Option Contact)
    (sendMessage : Contact → List Nat → List Nat → Msg → Bool) (now maxTTL : Nat) :
    ∀ (l : List (Nat × Queued)) (acc ord : List Nat),
      (deliverLoop findAndPingNode sendMessage now maxTTL l acc ord).1 =
        acc ++ (l.filter (removedInPass findAndPingNode sendMessage now maxTTL)).map
          Prod.fst
  | [], acc, ord => by simp [deliverLoop]
  | (mid, msg) :: rest, acc, ord => by
    rw [List.filter_cons]
    unfold deliverLoop
    split
    · next h1 =>
      rw [deliverLoop_fst findAndPingNode sendMessage now maxTTL rest (acc ++ [mid]) ord]
      have hr : removedInPass findAndPingNode sendMessage now maxTTL (mid, msg) = true := by
        unfold removedInPass
        rw [if_pos h1]
      rw [hr]
      simp
    · next h1 =>
      split
      · next node hf =>
        split
        · next h2 =>
          rw [deliverLoop_fst findAndPingNode sendMessage now maxTTL rest
            (acc ++ [mid]) ord]
          have hr : removedInPass findAndPingNode sendMessage now maxTTL (mid, msg)
              = true := by
            unfold removedInPass
            rw [if_neg h1, hf]
            exact h2
          rw [hr]
          simp
        · next h2 =>
          rw [deliverLoop_fst findAndPingNode sendMessage now maxTTL rest acc
            (ord.filter (fun aid => aid ≠ mid) ++ [mid])]
          have hr : removedInPass findAndPingNode sendMessage now maxTTL (mid, msg)
              = false := by
            unfold removedInPass
            rw [if_neg h1, hf]
            exact Bool.not_eq_true _ ▸ h2
          rw [hr]
          simp
      · next hf =>
        rw [deliverLoop_fst findAndPingNode sendMessage now maxTTL rest acc
          (ord.filter (fun aid => aid ≠ mid) ++ [mid])]
        have hr : removedInPass findAndPingNode sendMessage now maxTTL (mid, msg)
            = false := by
          unfold removedInPass
          rw [if_neg h1, hf]
        rw [hr]
        simp

lemma deliverPass_cachedMessages (st : CacheState)
    (findAndPingNode : List Nat → Option Contact)
    (sendMessage : Contact → List Nat → List Nat → Msg → Bool) (now maxTTL : Nat) :
    (deliverPass st findAndPingNode sendMessage now maxTTL).cachedMessages =
      st.cachedMessages.filter (fun p =>
        !(((st.cachedMessages.filter (removedInPass findAndPingNode sendMessage now
          maxTTL)).map Prod.fst).contains p.1)) := by
  simp only [deliverPass]
  rw [deliverLoop_fst]
  simp

lemma deliverPass_accessOrder_excludes (st : CacheState)
    (findAndPingNode : List Nat → Option Contact)
    (sendMessage : Contact → List Nat → List Nat → Msg → Bool) (now maxTTL : Nat)
    (x : Nat)
    (hx : x ∈ (st.cachedMessages.filter (removedInPass findAndPingNode sendMessage now
      maxTTL)).map Prod.fst) :
    x ∉ (deliverPass st findAndPingNode sendMessage now maxTTL).accessOrder := by
  simp only [deliverPass]
  intro hmem
  rw [List.mem_filter] at hmem
  obtain ⟨-, h2⟩ := hmem
  rw [deliverLoop_fst] at h2
  rw [List.nil_append] at h2
  rw [Bool.not_eq_true', ← Bool.not_eq_true] at h2
  exact h2 (contains_iff_mem.mpr hx)

/-- Claim C7 (amended): during tryToDeliverCachedMessages with clock value
now, every entry strictly older than maxTTL is removed from both the entries
map and the accessOrder list; an entry whose age is exactly maxTTL is not
expired by the TTL check, and stays in the entries map if and only if it was
not marked for removal in the pass, that is, if and only if delivery did not
succeed (findAndPingNode returned no live contact or the send failed).  The
original claim that an entry of age exactly maxTTL is always kept fails when
the delivery succeeds. -/
theorem tryDeliver_ttl_boundary (st : CacheState)
    (findAndPingNode : List Nat → Option Contact)
    (sendMessage : Contact → List Nat → List Nat → Msg → Bool)
    (now maxTTL : Nat)
    (hnd : (st.cachedMessages.map Prod.fst).Nodup)
    (p : Nat × Queued) (hp : p ∈ st.cachedMessages) :
    (now - p.2.message.timestamp > maxTTL →
      p.1 ∉ ((DistanceBased.tryToDeliverCachedMessages st findAndPingNode sendMessage
          now maxTTL).cache.cachedMessages.map Prod.fst) ∧
      p.1 ∉ (DistanceBased.tryToDeliverCachedMessages st findAndPingNode sendMessage
          now maxTTL).cache.accessOrder) ∧
    (now - p.2.message.timestamp = maxTTL →
      (p ∈ (DistanceBased.tryToDeliverCachedMessages st findAndPingNode sendMessage
          now maxTTL).cache.cachedMessages ↔
        removedInPass findAndPingNode sendMessage now maxTTL p = false)) := by
  simp only [DistanceBased.tryToDeliverCachedMessages]
  constructor
  · intro h1
    have hR : removedInPass findAndPingNode sendMessage now maxTTL p = true := by
      unfold removedInPass
      rw [if_pos h1]
    have hxin : p.1 ∈ (st.cachedMessages.filter (removedInPass findAndPingNode
        sendMessage now maxTTL)).map Prod.fst :=
      List.mem_map.mpr ⟨p, List.mem_filter.mpr ⟨hp, hR⟩, rfl⟩
    constructor
    · intro hk
      rw [deliverPass_cachedMessages] at hk
      obtain ⟨q, hq, hq1⟩ := List.mem_map.mp hk
      rw [List.mem_filter] at hq
      obtain ⟨-, hq2⟩ := hq
      rw [Bool.not_eq_true', ← Bool.not_eq_true] at hq2
      rw [hq1] at hq2
      exact hq2 (contains_iff_mem.mpr hxin)
    · exact deliverPass_accessOrder_excludes st findAndPingNode sendMessage now
        maxTTL p.1 hxin
  · intro _
    rw [deliverPass_cachedMessages]
    constructor
    · intro hmem
      rw [List.mem_filter] at hmem
      obtain ⟨-, h2⟩ := hmem
      rw [Bool.not_eq_true', ← Bool.not_eq_true] at h2
      cases hR : removedInPass findAndPingNode sendMessage now maxTTL p
      · rfl
      · exact absurd (contains_iff_mem.mpr (List.mem_map.mpr
          ⟨p, List.mem_filter.mpr ⟨hp, hR⟩, rfl⟩)) h2
    · intro hR
      rw [List.mem_filter]
      refine ⟨hp, ?_⟩
      rw [Bool.not_eq_true', ← Bool.not_eq_true]
      intro hcontains
      obtain ⟨q, hq, hq1⟩ := List.mem_map.mp (contains_iff_mem.mp hcontains)
      rw [List.mem_filter] at hq
      obtain ⟨hqmem, hqR⟩ := hq
      have hqp : q = p :=
        List.inj_on_of_nodup_map hnd hqmem hp hq1
      rw [hqp] at hqR
      rw [hR] at hqR
      exact Bool.false_ne_true hqR

def c7msg : Msg := { id := some 3, senderId := [1], timestamp := 5, content := true }

def c7cache : CacheState :=
  { cachedMessages := [(3, { sender := [1], recipient := [2], message := c7msg })],
    accessOrder := [3] }

/-- Claim C7 (counterexample): an entry whose age now minus timestamp equals
maxTTL exactly (now = 100, timestamp = 5, maxTTL = 95) is removed from the
cache when the recipient answers the ping and the send succeeds, so it is
not kept as the claim states. -/
theorem ttl_boundary_counterexample :
    (100 - c7msg.timestamp = (95 : Nat)) ∧
    (DistanceBased.tryToDeliverCachedMessages c7cache
        (fun _ => some { id := [2] }) (fun _ _ _ _ => true) 100 95).cache.cachedMessages
      = [] := by
  constructor
  · rfl
  · rfl

/-- Claim C7 (witness): the amended theorem applied at a cache whose single
entry is strictly older than maxTTL (age 195, maxTTL 50): its key leaves
both the entries map and the accessOrder list. -/
theorem ttl_boundary_witness :
    (3 : Nat) ∉ ((DistanceBased.tryToDeliverCachedMessages c7cache (fun _ => none)
        (fun _ _ _ _ => false) 200 50).cache.cachedMessages.map Prod.fst) ∧
    (3 : Nat) ∉ (DistanceBased.tryToDeliverCachedMessages c7cache (fun _ => none)
        (fun _ _ _ _ => false) 200 50).cache.accessOrder :=
  (tryDeliver_ttl_boundary c7cache (fun _ => none) (fun _ _ _ _ => false) 200 50
    (by decide) (3, { sender := [1], recipient := [2], message := c7msg })
    (by decide)).1 (by decide)

def pexSelf : List Nat := List.replicate 20 0

def pexIdA : List Nat := 128 :: List.replicate 19 0

def pexIdB : List Nat := List.replicate 19 0 ++ [1]

def pexBuckets : KBucketState := KBucket.init pexSelf 20

def pexChannels : List (List Nat × PEXChannel) :=
  [(pexIdA, { tag := 1, readyStateOpen := true }),
   (pexIdB, { tag := 2, readyStateOpen := true })]

/-- Claim C4 (code bug evidence): a node with local id 0x00...00 holds two
open PEX channels, to peer 0x80...00 (channel tag 1, inserted first) and to
peer 0x00...01 (channel tag 2).  sortClosestToSelf puts the tag-2 peer
first, and the selection the specification describes would return the tag-2
channel, yet getClosestOpenPEXDataChannel returns the tag-1 channel: the
source computes the sorted list, discards it, and returns the first open
channel in map insertion order. -/
theorem pex_closest_channel_bug :
    getClosestOpenPEXDataChannel pexBuckets pexChannels =
      some { tag := 1, readyStateOpen := true } ∧
    pexBuckets.sortClosestToSelf [pexIdA, pexIdB] = [pexIdB, pexIdA] ∧
    closestOpenPEXDataChannelSpec pexBuckets pexChannels =
      some { tag := 2, readyStateOpen := true } := by
  refine ⟨rfl, by decide, by decide⟩

lemma xorDistance_length : ∀ (a b : List Nat), (xorDistance a b).length = a.length
  | [], _ => rfl
  | _ :: as, [] => by
    simp [xorDistance, xorDistance_length as []]
  | _ :: as, _ :: bs => by
    simp [xorDistance, xorDistance_length as bs]

lemma byteBitIndex_le_seven {b j : Nat} (h : byteBitIndex b = some j) : j ≤ 7 := by
  unfold byteBitIndex at h
  split_ifs at h <;> simp_all <;> omega

lemma bucketIndexAux_lt : ∀ (d : List Nat) (i : Nat), i + d.length ≤ 20 →
    bucketIndexAux d i < 160
  | [], _, _ => by simp [bucketIndexAux]
  | b :: rest, i, h => by
    unfold bucketIndexAux
    split
    · next j hj2 =>
      have hj := byteBitIndex_le_seven hj2
      have hi : i ≤ 19 := by
        simp only [List.length_cons] at h
        omega
      omega
    · next =>
      apply bucketIndexAux_lt rest (i + 1)
      simp only [List.length_cons] at h
      omega

lemma bucketIndex_lt (d : List Nat) (hd : d.length ≤ 20) : bucketIndex d < 160 := by
  unfold bucketIndex
  exact bucketIndexAux_lt d 0 (by omega)

/-- The routing-table invariant of claim C6: 160 buckets, every bucket within
the capacity k, no bucket holding the local id, and every contact sitting in
the bucket its XOR distance to the local id indexes. -/
def KBucketInv (st : KBucketState) : Prop :=
  st.buckets.length = 160 ∧
  ∀ (j : Nat) (hj : j < st.buckets.length),
    (st.buckets[j]).length ≤ st.k ∧
    ∀ c ∈ st.buckets[j], c.id ≠ st.localId ∧
      bucketIndex (xorDistance st.localId c.id) = j

lemma add_localId (st : KBucketState) (node : Contact) :
    (st.add node).localId = st.localId := by
  simp only [KBucketState.add]
  split_ifs <;> rfl

lemma add_k (st : KBucketState) (node : Contact) : (st.add node).k = st.k := by
  simp only [KBucketState.add]
  split_ifs <;> rfl

lemma init_inv (localId : List Nat) (k : Nat) : KBucketInv (KBucket.init localId k) := by
  constructor
  · simp [KBucket.init]
  · intro j hj
    have hb : (KBucket.init localId k).buckets[j] = ([] : List Contact) :=
      List.getElem_replicate ([] : List Contact) hj
    rw [hb]
    constructor
    · simp
    · intro c hc
      simp at hc

lemma set_bucket_inv (st : KBucketState) (i : Nat) (newb : List Contact)
    (hlen : st.buckets.length = 160)
    (hbuckets : ∀ (j : Nat) (hj : j < st.buckets.length),
      (st.buckets[j]).length ≤ st.k ∧
      ∀ c ∈ st.buckets[j], c.id ≠ st.localId ∧
        bucketIndex (xorDistance st.localId c.id) = j)
    (hnewlen : newb.length ≤ st.k)
    (hnewmem : ∀ c ∈ newb, c.id ≠ st.localId ∧
      bucketIndex (xorDistance st.localId c.id) = i) :
    KBucketInv { st with buckets := st.buckets.set i newb } := by
  constructor
  · simp [List.length_set, hlen]
  · intro j hj
    simp only [List.length_set] at hj
    have hget : ({ st with buckets := st.buckets.set i newb }).buckets[j] =
        if i = j then newb else st.buckets[j] :=
      List.getElem_set (by simpa [List.length_set] using hj)
    rw [hget]
    by_cases hij : i = j
    · rw [if_pos hij]
      subst hij
      exact ⟨hnewlen, hnewmem⟩
    · rw [if_neg hij]
      exact hbuckets j hj

lemma add_preserves_inv (st : KBucketState) (node : Contact)
    (hk : 0 < st.k) (hL : st.localId.length = 20) (hinv : KBucketInv st) :
    KBucketInv (st.add node) := by
  obtain ⟨hlen, hbuckets⟩ := hinv
  by_cases hself : node.id = st.localId
  · unfold KBucketState.add
    rw [if_pos hself]
    exact ⟨hlen, hbuckets⟩
  · have hi160 : bucketIndex (xorDistance st.localId node.id) < 160 := by
      apply bucketIndex_lt
      rw [xorDistance_length]
      omega
    have hilt : bucketIndex (xorDistance st.localId node.id) < st.buckets.length := by
      rw [hlen]
      exact hi160
    have hbd : st.buckets.getD (bucketIndex (xorDistance st.localId node.id)) [] =
        st.buckets[bucketIndex (xorDistance st.localId node.id)] :=
      List.getD_eq_getElem _ _ hilt
    have hstep : st.add node =
        (if (st.buckets.getD (bucketIndex (xorDistance st.localId node.id)) []).any
            (fun n => n.id == node.id) then st
         else if (st.buckets.getD (bucketIndex (xorDistance st.localId node.id))
            []).length < st.k then
           { st with buckets := (st.buckets.set
               (bucketIndex (xorDistance st.localId node.id))
               (st.buckets.getD (bucketIndex (xorDistance st.localId node.id)) []
                 ++ [node])) }
         else
           { st with buckets := (st.buckets.set
               (bucketIndex (xorDistance st.localId node.id))
               ((st.buckets.getD (bucketIndex (xorDistance st.localId node.id))
                 []).drop 1 ++ [node])) }) := by
      unfold KBucketState.add
      rw [if_neg hself]
    rw [hstep]
    by_cases hpresent :
        (st.buckets.getD (bucketIndex (xorDistance st.localId node.id)) []).any
          (fun n => n.id == node.id) = true
    · rw [if_pos hpresent]
      exact ⟨hlen, hbuckets⟩
    · rw [if_neg hpresent]
      by_cases hroom :
          (st.buckets.getD (bucketIndex (xorDistance st.localId node.id)) []).length
            < st.k
      · rw [if_pos hroom]
        apply set_bucket_inv st _ _ hlen hbuckets
        · rw [List.length_append]
          rw [hbd] at hroom ⊢
          simp only [List.length_singleton]
          omega
        · intro c hc
          rcases List.mem_append.mp hc with hc2 | hc2
          · rw [hbd] at hc2
            exact (hbuckets _ hilt).2 c hc2
          · rw [List.mem_singleton] at hc2
            subst hc2
            exact ⟨hself, rfl⟩
      · rw [if_neg hroom]
        apply set_bucket_inv st _ _ hlen hbuckets
        · rw [List.length_append, List.length_drop]
          have hle := (hbuckets _ hilt).1
          rw [hbd] at hroom ⊢
          simp only [List.length_singleton]
          omega
        · intro c hc
          rcases List.mem_append.mp hc with hc2 | hc2
          · rw [hbd] at hc2
            exact (hbuckets _ hilt).2 c (List.mem_of_mem_drop hc2)
          · rw [List.mem_singleton] at hc2
            subst hc2
            exact ⟨hself, rfl⟩

lemma foldl_add_inv : ∀ (ops : List Contact) (st : KBucketState),
    0 < st.k → st.localId.length = 20 → KBucketInv st →
    KBucketInv (ops.foldl KBucketState.add st)
  | [], _, _, _, h => h
  | n :: rest, st, hk, hL, h => by
    simp only [List.foldl_cons]
    exact foldl_add_inv rest (st.add n)
      (by rw [add_k]; exact hk)
      (by rw [add_localId]; exact hL)
      (add_preserves_inv st n hk hL h)

/-- Claim C6: starting from a fresh routing table with positive capacity k
and a 20-byte local id, after any sequence of add operations the invariant
holds: 160 buckets, the self id in no bucket, every bucket of size at most
k, and every contact in the bucket indexed by the highest set bit of its XOR
distance to the local id.  Moreover, adding a new contact (not self, not
already present) to a state whose target bucket is full evicts the front
entry of that bucket and appends the new contact at the tail. -/
theorem kbucket_add_invariants (localId : List Nat) (k : Nat) (ops : List Contact)
    (hk : 0 < k) (hL : localId.length = 20) :
    KBucketInv (ops.foldl KBucketState.add (KBucket.init localId k)) ∧
    (∀ (st : KBucketState) (node : Contact),
      st.buckets.length = 160 → st.localId = localId → st.k = k →
      node.id ≠ localId →
      (st.buckets.getD (bucketIndex (xorDistance localId node.id)) []).any
        (fun n => n.id == node.id) = false →
      ¬ (st.buckets.getD (bucketIndex (xorDistance localId node.id)) []).length < k →
      (st.add node).buckets.getD (bucketIndex (xorDistance localId node.id)) [] =
        (st.buckets.getD (bucketIndex (xorDistance localId node.id)) []).drop 1
          ++ [node]) := by
  constructor
  · exact foldl_add_inv ops (KBucket.init localId k) hk hL (init_inv localId k)
  · intro st node hblen hloc hkk hnotself hnotpresent hfull
    subst hloc
    subst hkk
    have hi160 : bucketIndex (xorDistance st.localId node.id) < 160 := by
      apply bucketIndex_lt
      rw [xorDistance_length]
      omega
    have hstep : st.add node =
        { st with buckets := (st.buckets.set
            (bucketIndex (xorDistance st.localId node.id))
            ((st.buckets.getD (bucketIndex (xorDistance st.localId node.id))
              []).drop 1 ++ [node])) } := by
      unfold KBucketState.add
      rw [if_neg hnotself]
      rw [if_neg (by rw [hnotpresent]; exact Bool.false_ne_true)]
      rw [if_neg hfull]
    rw [hstep]
    have hilt : bucketIndex (xorDistance st.localId node.id) < st.buckets.length := by
      rw [hblen]
      exact hi160
    rw [List.getD_eq_getElem _ _ (by rw [List.length_set]; exact hilt)]
    rw [List.getElem_set (by rw [List.length_set]; exact hilt)]
    rw [if_pos rfl]

def kb6a : Contact := { id := 128 :: List.replicate 19 0 }

def kb6b : Contact := { id := List.replicate 19 0 ++ [1] }

/-- Claim C6 (witness): the invariant theorem applied to a table with local
id 0x00...00, capacity 20, after adding two contacts. -/
theorem kbucket_add_invariants_witness :
    (([kb6a, kb6b].foldl KBucketState.add
      (KBucket.init (List.replicate 20 0) 20)).buckets.length = 160) :=
  (kbucket_add_invariants (List.replicate 20 0) 20 [kb6a, kb6b]
    (by decide) (by decide)).1.1

lemma xor_byte_cancel {a b c : Nat} (h : a ^^^ c = b ^^^ c) : a = b := by
  have h2 := congrArg (fun x => x ^^^ c) h
  simpa [Nat.xor_cancel_right] using h2

lemma xorDistance_inj_aux : ∀ (a b t : List Nat), a.length = b.length →
    (xorDistance a t = xorDistance b t ↔ a = b)
  | [], [], _, _ => by simp
  | [], _ :: _, _, h => by simp at h
  | _ :: _, [], _, h => by simp at h
  | a :: as, b :: bs, [], h => by
    simp only [xorDistance, List.cons.injEq]
    rw [xorDistance_inj_aux as bs [] (by simpa using h)]
  | a :: as, b :: bs, c :: cs, h => by
    simp only [xorDistance, List.cons.injEq]
    rw [xorDistance_inj_aux as bs cs (by simpa using h)]
    constructor
    · rintro ⟨h1, h2⟩
      exact ⟨xor_byte_cancel h1, h2⟩
    · rintro ⟨h1, h2⟩
      subst h1
      exact ⟨rfl, h2⟩

lemma hexLt_false_antisymm : ∀ (x y : List Nat),
    hexLt x y = false → hexLt y x = false → x = y
  | [], [], _, _ => rfl
  | [], _ :: _, h1, _ => by simp [hexLt] at h1
  | _ :: _, [], _, h2 => by simp [hexLt] at h2
  | a :: as, b :: bs, h1, h2 => by
    unfold hexLt at h1 h2
    by_cases hab : a < b
    · rw [if_pos hab] at h1
      simp at h1
    · rw [if_neg hab] at h1
      by_cases hba : b < a
      · rw [if_pos hba] at h2
        simp at h2
      · rw [if_neg hba] at h1
        rw [if_neg hba, if_neg hab] at h2
        have he : a = b := by omega
        subst he
        rw [hexLt_false_antisymm as bs h1 h2]

lemma hexLe_antisymm {x y : List Nat} (h1 : hexLe x y = true)
    (h2 : hexLe y x = true) : x = y := by
  unfold hexLe at h1 h2
  rw [Bool.not_eq_true'] at h1 h2
  exact hexLt_false_antisymm x y h2 h1

lemma hexLt_trans : ∀ (x y z : List Nat),
    hexLt x y = true → hexLt y z = true → hexLt x z = true
  | [], [], _, h1, _ => by simp [hexLt] at h1
  | [], _ :: _, [], _, h2 => by simp [hexLt] at h2
  | [], _ :: _, _ :: _, _, _ => rfl
  | _ :: _, [], _, h1, _ => by simp [hexLt] at h1
  | _ :: _, _ :: _, [], _, h2 => by simp [hexLt] at h2
  | a :: as, b :: bs, c :: cs, h1, h2 => by
    unfold hexLt at h1 h2 ⊢
    by_cases hab : a < b
    · rw [if_pos hab] at h1
      by_cases hbc : b < c
      · rw [if_pos (by omega : a < c)]
      · rw [if_neg hbc] at h2
        by_cases hcb : c < b
        · rw [if_pos hcb] at h2
          simp at h2
        · have : b = c := by omega
          subst this
          rw [if_pos hab]
    · rw [if_neg hab] at h1
      by_cases hba : b < a
      · rw [if_pos hba] at h1
        simp at h1
      · have : a = b := by omega
        subst this
        rw [if_neg hab] at h1
        by_cases hac : a < c
        · rw [if_pos hac]
        · rw [if_neg hac] at h2
          by_cases hca : c < a
          · rw [if_pos hca] at h2
            simp at h2
          · rw [if_neg hca] at h2 ⊢
            rw [if_neg hac]
            exact hexLt_trans as bs cs h1 h2

lemma hexLt_trichotomy : ∀ (x y : List Nat),
    hexLt x y = true ∨ x = y ∨ hexLt y x = true
  | [], [] => Or.inr (Or.inl rfl)
  | [], _ :: _ => Or.inl rfl
  | _ :: _, [] => Or.inr (Or.inr rfl)
  | a :: as, b :: bs => by
    by_cases hab : a < b
    · left
      unfold hexLt
      rw [if_pos hab]
    · by_cases hba : b < a
      · right
        right
        unfold hexLt
        rw [if_pos hba]
      · have : a = b := by omega
        subst this
        rcases hexLt_trichotomy as bs with h | h | h
        · left
          unfold hexLt
          rw [if_neg hab, if_neg hab]
          exact h
        · right
          left
          rw [h]
        · right
          right
          unfold hexLt
          rw [if_neg hab, if_neg hab]
          exact h

lemma hexLt_irrefl : ∀ x : List Nat, hexLt x x = false
  | [] => rfl
  | a :: as => by
    unfold hexLt
    rw [if_neg (lt_irrefl a), if_neg (lt_irrefl a)]
    exact hexLt_irrefl as

lemma hexLt_asymm {x y : List Nat} (h : hexLt x y = true) : hexLt y x = false := by
  cases hyx : hexLt y x with
  | false => rfl
  | true =>
    have h2 := hexLt_trans x y x h hyx
    rw [hexLt_irrefl] at h2
    exact absurd h2 Bool.false_ne_true

lemma hexLe_total (x y : List Nat) : hexLe x y = true ∨ hexLe y x = true := by
  unfold hexLe
  cases hyx : hexLt y x with
  | false =>
    left
    rfl
  | true =>
    right
    rw [hexLt_asymm hyx]
    rfl

lemma hexLe_trans {x y z : List Nat} (h1 : hexLe x y = true)
    (h2 : hexLe y z = true) : hexLe x z = true := by
  unfold hexLe at h1 h2 ⊢
  rw [Bool.not_eq_true'] at h1 h2 ⊢
  cases hzx : hexLt z x with
  | false => rfl
  | true =>
    exfalso
    rcases hexLt_trichotomy z y with h3 | h3 | h3
    · rw [h3] at h2
      simp at h2
    · subst h3
      rw [hzx] at h1
      simp at h1
    · have h4 := hexLt_trans y z x h3 hzx
      rw [h4] at h1
      simp at h1

lemma insertSorted_perm (le : α → α → Bool) (a : α) :
    ∀ l : List α, (insertSorted le a l).Perm (a :: l)
  | [] => List.Perm.refl _
  | b :: l => by
    unfold insertSorted
    by_cases h : le a b = true
    · rw [if_pos h]
    · rw [if_neg h]
      exact ((insertSorted_perm le a l).cons b).trans (List.Perm.swap a b l)

lemma sortStable_perm (le : α → α → Bool) : ∀ l : List α, (sortStable le l).Perm l
  | [] => List.Perm.refl _
  | a :: l => by
    unfold sortStable
    exact (insertSorted_perm le a (sortStable le l)).trans
      ((sortStable_perm le l).cons a)

lemma insertSorted_pairwise (le : α → α → Bool)
    (htotal : ∀ x y, le x y = true ∨ le y x = true)
    (htrans : ∀ x y z, le x y = true → le y z = true → le x z = true)
    (a : α) : ∀ l : List α, l.Pairwise (fun x y => le x y = true) →
      (insertSorted le a l).Pairwise (fun x y => le x y = true)
  | [], _ => by simp [insertSorted]
  | b :: l, hp => by
    obtain ⟨hb, hl⟩ := List.pairwise_cons.mp hp
    unfold insertSorted
    by_cases h : le a b = true
    · rw [if_pos h]
      refine List.pairwise_cons.mpr ⟨?_, hp⟩
      intro x hx
      rcases List.mem_cons.mp hx with rfl | hx2
      · exact h
      · exact htrans a b x h (hb x hx2)
    · rw [if_neg h]
      have hba : le b a = true := by
        rcases htotal a b with h2 | h2
        · exact absurd h2 h
        · exact h2
      refine List.pairwise_cons.mpr
        ⟨?_, insertSorted_pairwise le htotal htrans a l hl⟩
      intro x hx
      have hx2 : x ∈ a :: l := (insertSorted_perm le a l).mem_iff.mp hx
      rcases List.mem_cons.mp hx2 with rfl | hx3
      · exact hba
      · exact hb x hx3

lemma sortStable_pairwise (le : α → α → Bool)
    (htotal : ∀ x y, le x y = true ∨ le y x = true)
    (htrans : ∀ x y z, le x y = true → le y z = true → le x z = true) :
    ∀ l : List α, (sortStable le l).Pairwise (fun x y => le x y = true)
  | [] => List.Pairwise.nil
  | a :: l => by
    unfold sortStable
    exact insertSorted_pairwise le htotal htrans a (sortStable le l)
      (sortStable_pairwise le htotal htrans l)

lemma sorted_perm_unique (key : α → List Nat) :
    ∀ (l1 l2 : List α), l1.Perm l2 →
      (∀ x ∈ l1, ∀ y ∈ l1, key x = key y → x = y) →
      l1.Pairwise (fun c d => hexLe (key c) (key d) = true) →
      l2.Pairwise (fun c d => hexLe (key c) (key d) = true) →
      l1 = l2
  | [], l2, hperm, _, _, _ => (hperm.symm.eq_nil).symm
  | a :: t1, l2, hperm, hinj, hs1, hs2 => by
    cases l2 with
    | nil =>
      rw [List.perm_nil] at hperm
      exact hperm
    | cons b t2 =>
      by_cases hab : a = b
      · subst hab
        have hperm2 : t1.Perm t2 := hperm.cons_inv
        have ht1 := (List.pairwise_cons.mp hs1).2
        have ht2 := (List.pairwise_cons.mp hs2).2
        have hinj2 : ∀ x ∈ t1, ∀ y ∈ t1, key x = key y → x = y :=
          fun x hx y hy =>
            hinj x (List.mem_cons_of_mem _ hx) y (List.mem_cons_of_mem _ hy)
        rw [sorted_perm_unique key t1 t2 hperm2 hinj2 ht1 ht2]
      · have ha2 : a ∈ b :: t2 := hperm.mem_iff.mp (List.mem_cons_self a t1)
        have hat2 : a ∈ t2 := by
          rcases List.mem_cons.mp ha2 with h | h
          · exact absurd h hab
          · exact h
        have hb1 : b ∈ a :: t1 := hperm.mem_iff.mpr (List.mem_cons_self b t2)
        have hbt1 : b ∈ t1 := by
          rcases List.mem_cons.mp hb1 with h | h
          · exact absurd h.symm hab
          · exact h
        have h1 : hexLe (key a) (key b) = true := (List.pairwise_cons.mp hs1).1 b hbt1
        have h2 : hexLe (key b) (key a) = true := (List.pairwise_cons.mp hs2).1 a hat2
        have hk : key a = key b := hexLe_antisymm h1 h2
        exact absurd
          (hinj a (List.mem_cons_self a t1) b (List.mem_cons_of_mem a hbt1) hk) hab

lemma contact_eq_of_id {a b : Contact} (h : a.id = b.id) : a = b := by
  cases a
  cases b
  simpa using h

/-- Claim C10: for 20-byte ids, the XOR distances of two ids to a common
target coincide exactly when the ids coincide; hence a duplicate-free list
of 20-byte contacts has pairwise distinct distances to any target, and a
list of such contacts admits exactly one ordering sorted by XOR distance to
the target, so the sorted order closest takes its prefix from is uniquely
determined: closest returns the first k entries of any distance-sorted
permutation of the contacts. -/
theorem xor_metric_no_ties (t : List Nat) (contacts : List Contact)
    (hlen : ∀ c ∈ contacts, c.id.length = 20) (hnd : contacts.Nodup) :
    (∀ a ∈ contacts, ∀ b ∈ contacts,
      (xorDistance a.id t = xorDistance b.id t ↔ a = b)) ∧
    (contacts.map (fun c => xorDistance c.id t)).Nodup ∧
    (∀ l1 l2 : List Contact, l1.Perm contacts → l2.Perm contacts →
      l1.Pairwise (fun c d => hexLe (xorDistance c.id t) (xorDistance d.id t) = true) →
      l2.Pairwise (fun c d => hexLe (xorDistance c.id t) (xorDistance d.id t) = true) →
      l1 = l2) ∧
    (∀ (st : KBucketState) (k : Nat), st.all = contacts →
      ∀ l : List Contact, l.Perm contacts →
        l.Pairwise (fun c d =>
          hexLe (xorDistance c.id t) (xorDistance d.id t) = true) →
        st.closest t k = l.take k) := by
  have hiff : ∀ a ∈ contacts, ∀ b ∈ contacts,
      (xorDistance a.id t = xorDistance b.id t ↔ a = b) := by
    intro a ha b hb
    constructor
    · intro h
      exact contact_eq_of_id ((xorDistance_inj_aux a.id b.id t
        (by rw [hlen a ha, hlen b hb])).mp h)
    · intro h
      rw [h]
  have huniq : ∀ l1 l2 : List Contact, l1.Perm contacts → l2.Perm contacts →
      l1.Pairwise (fun c d => hexLe (xorDistance c.id t) (xorDistance d.id t) = true) →
      l2.Pairwise (fun c d => hexLe (xorDistance c.id t) (xorDistance d.id t) = true) →
      l1 = l2 := by
    intro l1 l2 hp1 hp2 hs1 hs2
    apply sorted_perm_unique (fun c => xorDistance c.id t) l1 l2 (hp1.trans hp2.symm)
    · intro x hx y hy hk
      exact (hiff x (hp1.mem_iff.mp hx) y (hp1.mem_iff.mp hy)).mp hk
    · exact hs1
    · exact hs2
  refine ⟨hiff, ?_, huniq, ?_⟩
  · apply List.Nodup.map_on ?_ hnd
    intro x hx y hy hxy
    exact (hiff x hx y hy).mp hxy
  · intro st k hall l hperm hsorted
    unfold KBucketState.closest
    rw [hall]
    have hperm2 : ((sortStable (fun a b => hexLe a.2 b.2)
        (contacts.map (fun c => (c, xorDistance c.id t)))).map Prod.fst).Perm
          contacts := by
      refine ((sortStable_perm _ _).map Prod.fst).trans ?_
      rw [List.map_map]
      have : (Prod.fst ∘ fun c : Contact => (c, xorDistance c.id t)) = id := rfl
      rw [this, List.map_id]
    have hshape : ∀ p ∈ sortStable (fun a b => hexLe a.2 b.2)
        (contacts.map (fun c => (c, xorDistance c.id t))),
        p.2 = xorDistance p.1.id t := by
      intro p hp
      have hp2 : p ∈ contacts.map (fun c => (c, xorDistance c.id t)) :=
        (sortStable_perm _ _).mem_iff.mp hp
      obtain ⟨c, -, hc⟩ := List.mem_map.mp hp2
      rw [← hc]
    have hsorted2 : ((sortStable (fun a b => hexLe a.2 b.2)
        (contacts.map (fun c => (c, xorDistance c.id t)))).map Prod.fst).Pairwise
          (fun c d => hexLe (xorDistance c.id t) (xorDistance d.id t) = true) := by
      rw [List.pairwise_map]
      have hsp := sortStable_pairwise (fun a b : Contact × List Nat => hexLe a.2 b.2)
        (fun x y => hexLe_total x.2 y.2)
        (fun x y z h1 h2 => hexLe_trans h1 h2)
        (contacts.map (fun c => (c, xorDistance c.id t)))
      refine List.Pairwise.imp_of_mem ?_ hsp
      intro p q hp hq hpq
      rw [← hshape p hp, ← hshape q hq]
      exact hpq
    have heq : (sortStable (fun a b => hexLe a.2 b.2)
        (contacts.map (fun c => (c, xorDistance c.id t)))).map Prod.fst = l :=
      huniq _ l hperm2 hperm hsorted2 hsorted
    rw [← heq]
    rw [← List.map_take]

def c10t : List Nat := List.replicate 20 0

def c10contacts : List Contact := [kb6a, kb6b]

/-- Claim C10 (witness): the theorem applied at a concrete target and two
distinct 20-byte contacts: their XOR distances to the target are pairwise
distinct. -/
theorem xor_metric_no_ties_witness :
    (c10contacts.map (fun c => xorDistance c.id c10t)).Nodup :=
  (xor_metric_no_ties c10t c10contacts (by decide) (by decide)).2.1
